import Mathlib

/-!
Shallow embedding of the data-access layer (the `DataBase` class) of the
PGC_start repository: a process-wide MongoDB connection manager with lazy
connect, unique-index initialization, and a small CRUD surface
(`documentExists`, `addDocument`, `removeAllDocuments`).

The TypeScript methods mutate `this` and may throw; here each method is a
state transformer returning the updated state paired with
`Except ErrorInfo α` (an `.error` result models a thrown exception).  The
external MongoDB store reached through the driver is modelled by `Server`.
-/

/-- An error value as observed by the TypeScript `catch` blocks: a message,
plus the optional `code` / `codeName` fields that MongoDB server errors carry
(a plain `Error` object has neither). -/
structure ErrorInfo where
  code : Option Nat
  codeName : Option String
  msg : String
deriving DecidableEq

/-- A document: an association list from field names to values (a shallow
model of a BSON document over a value type `V`). -/
abbrev Document (V : Type) := List (String × V)

/-- Field lookup in a document: the value of the first binding of `f`. -/
def getField {V : Type} (doc : Document V) (f : String) : Option V :=
  match doc with
  | [] => none
  | (k, v) :: rest => if k = f then some v else getField rest f

/-- Model of the external MongoDB server state acted upon by the driver
calls: per-collection document lists, the set of `(collection, field)`
unique indexes, a counter supplying generated ids, and an optional injected
store failure reported by index creation (modelling "any other store
failure" of the error taxonomy). -/
structure Server (V : Type) where
  collections : String → List (Document V)
  indexes : List (String × String)
  nextId : Nat
  indexFault : Option ErrorInfo

/-- The module-level `clientPromise` of `mongodb.ts`: awaiting it either
yields the process-wide client (identified by a number) or rejects. -/
structure Env where
  clientPromise : Except ErrorInfo Nat

/-- A `Db` handle as returned by `client.db(dbName)`: the client it is
bound to together with the database name. -/
abbrev DbHandle := Nat × String

/-- The `DataBase` instance fields: the bound database name and the
nullable `client` / `db` members. -/
structure DataBase where
  dbName : String
  client : Option Nat
  db : Option DbHandle
deriving DecidableEq

/-- Combined state of an operation: the `DataBase` instance plus the
external store. -/
structure State (V : Type) where
  mgr : DataBase
  server : Server V

/-- `DataBase.getInstance(dbName)`: if the static `instance` field is
unset, construct the instance bound to `dbName`; in every case return the
instance together with the updated static field. -/
def getInstance (instanceField : Option DataBase) (dbName : String) :
    DataBase × Option DataBase :=
  match instanceField with
  | none =>
    let d : DataBase := ⟨dbName, none, none⟩
    (d, some d)
  | some d => (d, some d)

/-- `connectDb()`: if both `client` and `db` are set, return at once
without touching the environment; otherwise await `clientPromise` and record
the client and `db` handle, or rethrow the connection error leaving both
fields unchanged. -/
def connectDb (env : Env) (s : DataBase) : DataBase × Except ErrorInfo Unit :=
  if s.client.isSome && s.db.isSome then (s, .ok ())
  else
    match env.clientPromise with
    | .ok c => ({ s with client := some c, db := some (c, s.dbName) }, .ok ())
    | .error e => (s, .error e)

/-- `disconnectDb()`: a no-op when `client` is null; otherwise `close()`
the client (its outcome is the `closeRes` parameter): on success both
`client` and `db` are nulled out, on failure the error is rethrown with
both fields left unchanged. -/
def disconnectDb (closeRes : Except ErrorInfo Unit) (s : DataBase) :
    DataBase × Except ErrorInfo Unit :=
  match s.client with
  | none => (s, .ok ())
  | some _ =>
    match closeRes with
    | .ok _ => ({ s with client := none, db := none }, .ok ())
    | .error e => (s, .error e)

/-- The plain `Error` thrown by `getCollection` when `db` is null (it has
no `code` and no `codeName`). -/
def notInitializedError : ErrorInfo :=
  ⟨none, none, "Database not initialized. Call initDb() first."⟩

/-- A collection handle as returned by `db.collection(name)`: the `Db`
handle it is bound to plus the collection name. -/
abbrev CollHandle := DbHandle × String

/-- `getCollection(collectionName)`: throws the not-initialized error when
`db` is null — it is synchronous and never connects (its type takes no
`Env` and returns no state) — otherwise returns the collection handle bound
to the current connection. -/
def getCollection (s : DataBase) (collectionName : String) :
    Except ErrorInfo CollHandle :=
  match s.db with
  | none => .error notInitializedError
  | some h => .ok (h, collectionName)

/-- `buildQuery(field, value)`: the single-field equality filter. -/
def buildQuery {V : Type} (field : String) (value : V) : String × V :=
  (field, value)

/-- Whether a document matches a single-field equality filter. -/
def matchesFilter {V : Type} [DecidableEq V] (q : String × V)
    (d : Document V) : Bool :=
  match getField d q.1 with
  | some v => decide (v = q.2)
  | none => false

/-- `collection.findOne(query)` on the store: the first matching document,
if any. -/
def Server.findOne {V : Type} [DecidableEq V] (sv : Server V)
    (coll : String) (q : String × V) : Option (Document V) :=
  (sv.collections coll).find? (matchesFilter q)

/-- `collection.createIndex({[field]: 1}, {unique: true})` on the store: an
injected store failure is reported as-is; an index that already exists on
the field is reported with code 85 / `IndexOptionsConflict`; otherwise the
index is recorded and the call succeeds. -/
def Server.createIndex {V : Type} (sv : Server V) (coll field : String) :
    Except ErrorInfo (Server V) :=
  match sv.indexFault with
  | some e => .error e
  | none =>
    if (coll, field) ∈ sv.indexes then
      .error ⟨some 85, some "IndexOptionsConflict", "index already exists"⟩
    else
      .ok { sv with indexes := (coll, field) :: sv.indexes }

/-- The recoverable already-exists test of the `catch` block:
`error.code === 85 || error.codeName === 'IndexOptionsConflict'`. -/
def isIndexConflict (e : ErrorInfo) : Bool :=
  decide (e.code = some 85) || decide (e.codeName = some "IndexOptionsConflict")

/-- `createUniqueIndex(fieldName, collectionName)`: inside the `try`, get
the collection and create the index; in the `catch`, a conflict error is
suppressed (a warning is logged) and any other error is rethrown. -/
def createUniqueIndex {V : Type} (st : State V)
    (fieldName collectionName : String) : State V × Except ErrorInfo Unit :=
  let attempt : Except ErrorInfo (Server V) :=
    match getCollection st.mgr collectionName with
    | .error e => .error e
    | .ok _ => st.server.createIndex collectionName fieldName
  match attempt with
  | .ok sv => ({ st with server := sv }, .ok ())
  | .error e => if isIndexConflict e then (st, .ok ()) else (st, .error e)

/-- Creating one unique index per field of `fields`.  This is the body of
the sequential `for` loop of `initCollection`; it is also the shallow
(sequentialised) model of the `Promise.all` fan-out of `initDb`: the set of
created indexes and the reported first fatal failure agree. -/
def createIndexesAll {V : Type} (st : State V) (fields : List String)
    (collectionName : String) : State V × Except ErrorInfo Unit :=
  match fields with
  | [] => (st, .ok ())
  | f :: rest =>
    match createUniqueIndex st f collectionName with
    | (st1, .ok _) => createIndexesAll st1 rest collectionName
    | (st1, .error e) => (st1, .error e)

/-- The `if (!this.db) { await this.connectDb(); }` idiom that opens
`initCollection` and every CRUD method: a lazy connect performed exactly
when `db` is null. -/
def ensureConn {V : Type} (env : Env) (st : State V) :
    DataBase × Except ErrorInfo Unit :=
  match st.mgr.db with
  | none => connectDb env st.mgr
  | some _ => (st.mgr, .ok ())

/-- `initDb(indexes, collectionName)`: when `db` is null, connect and
create all the requested indexes, rethrowing any error; when `db` is
already set, only a message is logged — no index is requested.  Returns
`this.db`. -/
def initDb {V : Type} (env : Env) (st : State V) (indexes : List String)
    (collectionName : String) : State V × Except ErrorInfo (Option DbHandle) :=
  match st.mgr.db with
  | some _ => (st, .ok st.mgr.db)
  | none =>
    match connectDb env st.mgr with
    | (mgr1, .error e) => ({ st with mgr := mgr1 }, .error e)
    | (mgr1, .ok _) =>
      match createIndexesAll { st with mgr := mgr1 } indexes collectionName with
      | (st2, .error e) => (st2, .error e)
      | (st2, .ok _) => (st2, .ok st2.mgr.db)

/-- `initCollection(indexes, collectionName)`: when `db` is null, connect
first; then — in every case, connected or not — create all the indexes
sequentially, rethrowing the first failure.  Returns `this.db`. -/
def initCollection {V : Type} (env : Env) (st : State V)
    (indexes : List String) (collectionName : String) :
    State V × Except ErrorInfo (Option DbHandle) :=
  match ensureConn env st with
  | (mgr1, .error e) => ({ st with mgr := mgr1 }, .error e)
  | (mgr1, .ok _) =>
    match createIndexesAll { st with mgr := mgr1 } indexes collectionName with
    | (st2, .error e) => (st2, .error e)
    | (st2, .ok _) => (st2, .ok st2.mgr.db)

/-- `documentExists(field, value, collectionName)`: lazy-connect when `db`
is null, then `findOne` with the single-field equality query built by
`buildQuery` and return whether a document was found; errors are
rethrown. -/
def documentExists {V : Type} [DecidableEq V] (env : Env) (st : State V)
    (field : String) (value : V) (collectionName : String) :
    State V × Except ErrorInfo Bool :=
  match ensureConn env st with
  | (mgr1, .error e) => ({ st with mgr := mgr1 }, .error e)
  | (mgr1, .ok _) =>
    let st1 : State V := { st with mgr := mgr1 }
    match getCollection st1.mgr collectionName with
    | .error e => (st1, .error e)
    | .ok _ =>
      (st1, .ok (st1.server.findOne collectionName (buildQuery field value)).isSome)

/-- Whether inserting `doc` into `coll` would violate one of the store's
unique indexes: some index on `coll` names a field that `doc` carries with
a value already present in an existing document of the collection. -/
def Server.dupViolation {V : Type} [DecidableEq V] (sv : Server V)
    (coll : String) (doc : Document V) : Bool :=
  sv.indexes.any fun idx =>
    decide (idx.1 = coll) &&
      match getField doc idx.2 with
      | some v => (sv.collections coll).any fun d => decide (getField d idx.2 = some v)
      | none => false

/-- The duplicate-key error (`E11000`) the store reports on a unique-index
violation. -/
def duplicateKeyError : ErrorInfo :=
  ⟨some 11000, some "DuplicateKey", "E11000 duplicate key error"⟩

/-- `collection.insertOne(document)` on the store: fails with the
duplicate-key error on a unique-index violation, otherwise appends the
document to the collection and returns the generated id. -/
def Server.insertOne {V : Type} [DecidableEq V] (sv : Server V)
    (coll : String) (doc : Document V) : Except ErrorInfo (Nat × Server V) :=
  if sv.dupViolation coll doc then .error duplicateKeyError
  else
    .ok (sv.nextId,
      { sv with
        collections := fun n =>
          if n = coll then sv.collections coll ++ [doc] else sv.collections n,
        nextId := sv.nextId + 1 })

/-- `addDocument(collectionName, document)`: lazy-connect when `db` is
null, then insert the document and return the generated id; errors are
rethrown. -/
def addDocument {V : Type} [DecidableEq V] (env : Env) (st : State V)
    (collectionName : String) (doc : Document V) :
    State V × Except ErrorInfo Nat :=
  match ensureConn env st with
  | (mgr1, .error e) => ({ st with mgr := mgr1 }, .error e)
  | (mgr1, .ok _) =>
    let st1 : State V := { st with mgr := mgr1 }
    match getCollection st1.mgr collectionName with
    | .error e => (st1, .error e)
    | .ok _ =>
      match st1.server.insertOne collectionName doc with
      | .error e => (st1, .error e)
      | .ok (i, sv) => ({ st1 with server := sv }, .ok i)

/-- `collection.deleteMany({})` on the store: the empty filter matches
every document, so all documents of the collection are removed and the
deleted count is their number. -/
def Server.deleteManyAll {V : Type} (sv : Server V) (coll : String) :
    Nat × Server V :=
  ((sv.collections coll).length,
    { sv with collections := fun n => if n = coll then [] else sv.collections n })

/-- `removeAllDocuments(collectionName)`: lazy-connect when `db` is null,
then delete every document of the collection and return the deleted
count; errors are rethrown. -/
def removeAllDocuments {V : Type} (env : Env) (st : State V)
    (collectionName : String) : State V × Except ErrorInfo Nat :=
  match ensureConn env st with
  | (mgr1, .error e) => ({ st with mgr := mgr1 }, .error e)
  | (mgr1, .ok _) =>
    let st1 : State V := { st with mgr := mgr1 }
    match getCollection st1.mgr collectionName with
    | .error e => (st1, .error e)
    | .ok _ =>
      let (n, sv) := st1.server.deleteManyAll collectionName
      ({ st1 with server := sv }, .ok n)

/-! Concrete fixtures used by witnesses and counterexamples. -/

/-- An empty store: no documents, no indexes, no injected fault. -/
def sampleServer : Server String :=
  ⟨fun _ => [], [], 0, none⟩

/-- A disconnected instance bound to database "pgc", over an empty store. -/
def stDisc : State String :=
  ⟨⟨"pgc", none, none⟩, sampleServer⟩

/-- A connected instance (client 0) bound to "pgc", over an empty store. -/
def stConn : State String :=
  ⟨⟨"pgc", some 0, some (0, "pgc")⟩, sampleServer⟩

/-- A connected instance over a store that already has the unique index
on `("User", "email")`. -/
def stIdx : State String :=
  ⟨⟨"pgc", some 0, some (0, "pgc")⟩, ⟨fun _ => [], [("User", "email")], 0, none⟩⟩

/-- An environment whose `clientPromise` resolves to client 0. -/
def env0 : Env := ⟨.ok 0⟩

/-- An environment whose `clientPromise` rejects. -/
def envBad : Env := ⟨.error ⟨none, none, "connection refused"⟩⟩

/-! ### Helper lemmas about index creation -/

/-- When the instance is connected, the store has no injected fault and the
index is already present, `createUniqueIndex` succeeds silently with the
state unchanged (the store reports code 85, which the `catch` suppresses). -/
lemma createUniqueIndex_mem_ok {V : Type} (st : State V) (f c : String)
    (h : DbHandle) (hdb : st.mgr.db = some h)
    (hf : st.server.indexFault = none) (hmem : (c, f) ∈ st.server.indexes) :
    createUniqueIndex st f c = (st, .ok ()) := by
  simp [createUniqueIndex, getCollection, hdb, Server.createIndex, hf, hmem,
    isIndexConflict]

/-- When the instance is connected and the store has no injected fault,
`createUniqueIndex` succeeds, leaves the manager, the fault flag and the
documents unchanged, makes the requested index present, and keeps every
previously present index. -/
lemma createUniqueIndex_ok {V : Type} (st : State V) (f c : String)
    (h : DbHandle) (hdb : st.mgr.db = some h)
    (hf : st.server.indexFault = none) :
    (createUniqueIndex st f c).2 = .ok () ∧
    (createUniqueIndex st f c).1.mgr = st.mgr ∧
    (createUniqueIndex st f c).1.server.indexFault = none ∧
    (createUniqueIndex st f c).1.server.collections = st.server.collections ∧
    (c, f) ∈ (createUniqueIndex st f c).1.server.indexes ∧
    ∀ p ∈ st.server.indexes, p ∈ (createUniqueIndex st f c).1.server.indexes := by
  by_cases hmem : (c, f) ∈ st.server.indexes
  · rw [createUniqueIndex_mem_ok st f c h hdb hf hmem]
    exact ⟨rfl, rfl, hf, rfl, hmem, fun p hp => hp⟩
  · simp only [createUniqueIndex, getCollection, hdb, Server.createIndex, hf,
      if_neg hmem]
    refine ⟨trivial, trivial, trivial, trivial, List.mem_cons_self _ _, ?_⟩
    exact fun p hp => List.mem_cons_of_mem _ hp

/-- Folding `createUniqueIndex` over a field list from a connected,
fault-free state succeeds, preserves the manager, the fault flag and the
documents, and ends with every requested index (and every previously
present one) present. -/
lemma createIndexesAll_ok {V : Type} (fields : List String) (st : State V)
    (c : String) (h : DbHandle) (hdb : st.mgr.db = some h)
    (hf : st.server.indexFault = none) :
    (createIndexesAll st fields c).2 = .ok () ∧
    (createIndexesAll st fields c).1.mgr = st.mgr ∧
    (createIndexesAll st fields c).1.server.indexFault = none ∧
    (createIndexesAll st fields c).1.server.collections = st.server.collections ∧
    (∀ f ∈ fields, (c, f) ∈ (createIndexesAll st fields c).1.server.indexes) ∧
    ∀ p ∈ st.server.indexes, p ∈ (createIndexesAll st fields c).1.server.indexes := by
  induction fields generalizing st with
  | nil => simp [createIndexesAll, hf]
  | cons f rest ih =>
    obtain ⟨h2, hmgr, hfault, hcolls, hmem, hmono⟩ :=
      createUniqueIndex_ok st f c h hdb hf
    rcases hres : createUniqueIndex st f c with ⟨st1, r⟩
    rw [hres] at h2 hmgr hfault hcolls hmem hmono
    simp only at h2 hmgr hfault hcolls hmem hmono
    subst h2
    have hdb1 : st1.mgr.db = some h := by rw [hmgr, hdb]
    obtain ⟨ih2, ihmgr, ihfault, ihcolls, ihmem, ihmono⟩ := ih st1 hdb1 hfault
    simp only [createIndexesAll, hres]
    refine ⟨ih2, by rw [ihmgr, hmgr], ihfault, by rw [ihcolls, hcolls], ?_, ?_⟩
    · intro f' hf'
      rcases List.mem_cons.mp hf' with hEq | hRest
      · subst hEq; exact ihmono _ hmem
      · exact ihmem f' hRest
    · exact fun p hp => ihmono p (hmono p hp)

/-! ### Claim theorems -/

/-- C3: `createUniqueIndex` suppresses the store's already-exists report
(code 85 / `IndexOptionsConflict`) and returns successfully with the state
unchanged; any other store failure is rethrown unchanged to the caller;
consequently, after a successful `createUniqueIndex`, issuing the same call
again does not throw. -/
theorem createUniqueIndex_error_policy :
    (∀ (V : Type) (st : State V) (f c : String) (h : DbHandle),
      st.mgr.db = some h → st.server.indexFault = none →
      (c, f) ∈ st.server.indexes → createUniqueIndex st f c = (st, .ok ())) ∧
    (∀ (V : Type) (st : State V) (f c : String) (h : DbHandle) (e : ErrorInfo),
      st.mgr.db = some h → st.server.indexFault = some e →
      isIndexConflict e = false → createUniqueIndex st f c = (st, .error e)) ∧
    (∀ (V : Type) (st st1 : State V) (f c : String),
      st.server.indexFault = none → createUniqueIndex st f c = (st1, .ok ()) →
      (createUniqueIndex st1 f c).2 = .ok ()) := by
  refine ⟨?_, ?_, ?_⟩
  · intro V st f c h hdb hf hmem
    exact createUniqueIndex_mem_ok st f c h hdb hf hmem
  · intro V st f c h e hdb hf hnc
    simp [createUniqueIndex, getCollection, hdb, Server.createIndex, hf, hnc]
  · intro V st st1 f c hf hcall
    rcases hdb : st.mgr.db with _ | h
    · rw [createUniqueIndex, getCollection, hdb] at hcall
      simp [isIndexConflict, notInitializedError] at hcall
    · obtain ⟨h2, hmgr, hfault, _, hmem, _⟩ := createUniqueIndex_ok st f c h hdb hf
      rw [hcall] at hmgr hfault hmem
      simp only at hmgr hfault hmem
      have hdb1 : st1.mgr.db = some h := by rw [hmgr, hdb]
      rw [createUniqueIndex_mem_ok st1 f c h hdb1 hfault hmem]

/-- Witness for C3: with the unique index on `("User", "email")` already
present in the store, requesting it again succeeds without throwing. -/
theorem createUniqueIndex_error_policy_witness :
    createUniqueIndex stIdx "email" "User" = (stIdx, .ok ()) :=
  createUniqueIndex_error_policy.1 String stIdx "email" "User" (0, "pgc")
    rfl rfl (by simp [stIdx])

/-- C5: `getInstance` returns the process-wide instance: the first call
constructs it bound to the first caller's name, and every later call — with
any name, equal or different — returns that same instance and never creates
a second one. -/
theorem getInstance_singleton :
    ∀ (n1 n2 : String),
      (getInstance none n1).1.dbName = n1 ∧
      (getInstance (getInstance none n1).2 n2).1 = (getInstance none n1).1 ∧
      ∀ (d : DataBase) (n : String), getInstance (some d) n = (d, some d) := by
  intro n1 n2
  exact ⟨rfl, rfl, fun d n => rfl⟩

/-- C6: `connectDb` is idempotent — from any state with both `client` and
`db` set it returns immediately with the state unchanged, and this holds
for every environment (even one whose `clientPromise` would reject), so no
second connection attempt is made. -/
theorem connectDb_idempotent :
    ∀ (env : Env) (s : DataBase) (c : Nat) (h : DbHandle),
      s.client = some c → s.db = some h → connectDb env s = (s, .ok ()) := by
  intro env s c h hc hd
  simp [connectDb, hc, hd]

/-- Witness for C6: in a connected state, `connectDb` returns the state
unchanged even under an environment whose `clientPromise` rejects. -/
theorem connectDb_idempotent_witness :
    connectDb envBad stConn.mgr = (stConn.mgr, .ok ()) :=
  connectDb_idempotent envBad stConn.mgr 0 (0, "pgc") rfl rfl

/-- C7: with no connection, `getCollection` fails immediately with the
distinct not-initialized error — being a pure function of the instance with
no environment, it performs no lazy connect — and with a connection it
returns the handle of the named collection bound to that connection. -/
theorem getCollection_spec :
    (∀ (s : DataBase) (collectionName : String), s.db = none →
      getCollection s collectionName = .error notInitializedError ∧
      notInitializedError.msg = "Database not initialized. Call initDb() first.") ∧
    (∀ (s : DataBase) (h : DbHandle) (collectionName : String), s.db = some h →
      getCollection s collectionName = .ok (h, collectionName)) := by
  constructor
  · intro s n hd
    exact ⟨by simp [getCollection, hd], rfl⟩
  · intro s h n hd
    simp [getCollection, hd]

/-- Witness for C7: on the disconnected fixture the call fails with the
not-initialized error; on the connected fixture it returns the bound
handle. -/
theorem getCollection_spec_witness :
    getCollection stDisc.mgr "User" = .error notInitializedError ∧
    getCollection stConn.mgr "User" = .ok ((0, "pgc"), "User") :=
  ⟨(getCollection_spec.1 stDisc.mgr "User" rfl).1,
   getCollection_spec.2 stConn.mgr (0, "pgc") "User" rfl⟩

/-- C10: `disconnectDb` is a no-op when `client` is null; when `close()`
fails the error is rethrown and the state — in particular the still
non-null `client` and `db` fields — is unchanged; on a successful close
both fields are reset to null. -/
theorem disconnectDb_spec :
    (∀ (closeRes : Except ErrorInfo Unit) (s : DataBase), s.client = none →
      disconnectDb closeRes s = (s, .ok ())) ∧
    (∀ (s : DataBase) (c : Nat) (h : DbHandle) (e : ErrorInfo),
      s.client = some c → s.db = some h →
      disconnectDb (.error e) s = (s, .error e) ∧
      (disconnectDb (.error e) s).1.client = some c ∧
      (disconnectDb (.error e) s).1.db = some h) ∧
    (∀ (s : DataBase) (c : Nat), s.client = some c →
      (disconnectDb (.ok ()) s).1.client = none ∧
      (disconnectDb (.ok ()) s).1.db = none ∧
      (disconnectDb (.ok ()) s).2 = .ok ()) := by
  refine ⟨?_, ?_, ?_⟩
  · intro cr s hc
    simp [disconnectDb, hc]
  · intro s c h e hc hd
    refine ⟨by simp [disconnectDb, hc], by simp [disconnectDb, hc, hd], ?_⟩
    simp [disconnectDb, hc, hd]
  · intro s c hc
    simp [disconnectDb, hc]

/-- Witness for C10: on the connected fixture a failing close rethrows with
the state unchanged, and a successful close nulls out the client. -/
theorem disconnectDb_spec_witness :
    disconnectDb (.error ⟨none, none, "close failed"⟩) stConn.mgr =
      (stConn.mgr, .error ⟨none, none, "close failed"⟩) ∧
    (disconnectDb (.ok ()) stConn.mgr).1.client = none :=
  ⟨(disconnectDb_spec.2.1 stConn.mgr 0 (0, "pgc") ⟨none, none, "close failed"⟩
      rfl rfl).1,
   (disconnectDb_spec.2.2 stConn.mgr 0 rfl).1⟩

/-! ### Helper lemmas about the lazy-connect prelude -/

/-- When `db` is already set, the lazy-connect prelude does nothing. -/
lemma ensureConn_some {V : Type} (env : Env) (st : State V) (h : DbHandle)
    (hdb : st.mgr.db = some h) : ensureConn env st = (st.mgr, .ok ()) := by
  simp [ensureConn, hdb]

/-- When `db` is null and `clientPromise` resolves to `c`, the lazy-connect
prelude records client `c` and the handle of the bound database. -/
lemma ensureConn_none {V : Type} (env : Env) (st : State V) (c : Nat)
    (hdb : st.mgr.db = none) (hcp : env.clientPromise = .ok c) :
    ensureConn env st =
      ({ st.mgr with client := some c, db := some (c, st.mgr.dbName) }, .ok ()) := by
  simp [ensureConn, connectDb, hdb, hcp]

/-- When `db` is null and `clientPromise` rejects, the lazy-connect prelude
rethrows the connection error with the manager unchanged. -/
lemma ensureConn_none_err {V : Type} (env : Env) (st : State V) (e : ErrorInfo)
    (hdb : st.mgr.db = none) (hcp : env.clientPromise = .error e) :
    ensureConn env st = (st.mgr, .error e) := by
  simp [ensureConn, connectDb, hdb, hcp]

/-- Counterexample to C1: on an already-connected instance over a store
with no indexes, `initDb ["email"] "User"` returns successfully yet
requests no index — the store's index set is still empty afterwards. -/
theorem initDb_skips_when_connected_cex :
    (initDb env0 stConn ["email"] "User").2 = .ok (some (0, "pgc")) ∧
    (initDb env0 stConn ["email"] "User").1.server.indexes = [] := by
  exact ⟨rfl, rfl⟩

/-- C1 (amended): `initDb` requests the indexes only when no connection
exists: in that case it connects and creates a unique index for every
field of the list, returning once all have been handled, and a fatal store
failure is rethrown; when a connection is already established it returns
the current handle without requesting any index. -/
theorem initDb_spec :
    (∀ (V : Type) (env : Env) (st : State V) (idxs : List String)
       (coll : String) (c : Nat),
      st.mgr.db = none → env.clientPromise = .ok c →
      st.server.indexFault = none →
      (initDb env st idxs coll).2 = .ok (some (c, st.mgr.dbName)) ∧
      ∀ f ∈ idxs, (coll, f) ∈ (initDb env st idxs coll).1.server.indexes) ∧
    (∀ (V : Type) (env : Env) (st : State V) (coll : String) (c : Nat)
       (e : ErrorInfo) (f : String) (rest : List String),
      st.mgr.db = none → env.clientPromise = .ok c →
      st.server.indexFault = some e → isIndexConflict e = false →
      (initDb env st (f :: rest) coll).2 = .error e) ∧
    (∀ (V : Type) (env : Env) (st : State V) (idxs : List String)
       (coll : String) (h : DbHandle),
      st.mgr.db = some h → initDb env st idxs coll = (st, .ok st.mgr.db)) := by
  refine ⟨?_, ?_, ?_⟩
  · intro V env st idxs coll c hdb hcp hf
    have hconn : connectDb env st.mgr =
        ({ st.mgr with client := some c, db := some (c, st.mgr.dbName) }, .ok ()) := by
      simp [connectDb, hdb, hcp]
    obtain ⟨a2, amgr, _, _, amem, _⟩ :=
      createIndexesAll_ok idxs
        { st with mgr := { st.mgr with client := some c, db := some (c, st.mgr.dbName) } }
        coll (c, st.mgr.dbName) rfl hf
    rcases hca : createIndexesAll
        { st with mgr := { st.mgr with client := some c, db := some (c, st.mgr.dbName) } }
        idxs coll with ⟨st2, r2⟩
    rw [hca] at a2 amgr amem
    simp only at a2 amgr amem
    subst a2
    have hdb2 : st2.mgr.db = some (c, st.mgr.dbName) := by rw [amgr]
    constructor
    · simp only [initDb, hdb, hconn, hca, hdb2]
    · intro f hfm
      simp only [initDb, hdb, hconn, hca]
      exact amem f hfm
  · intro V env st coll c e f rest hdb hcp hf hnc
    simp [initDb, hdb, connectDb, hcp, createIndexesAll, createUniqueIndex,
      getCollection, Server.createIndex, hf, hnc]
  · intro V env st idxs coll h hdb
    simp [initDb, hdb]

/-- Witness for C1 (amended): from the disconnected fixture, `initDb`
connects and the requested index on `("User", "email")` is present
afterwards. -/
theorem initDb_spec_witness :
    (initDb env0 stDisc ["email"] "User").2 = .ok (some (0, "pgc")) ∧
    ("User", "email") ∈ (initDb env0 stDisc ["email"] "User").1.server.indexes :=
  ⟨(initDb_spec.1 String env0 stDisc ["email"] "User" 0 rfl rfl rfl).1,
   (initDb_spec.1 String env0 stDisc ["email"] "User" 0 rfl rfl rfl).2
     "email" (by simp)⟩

/-- Counterexample to C2: from the same already-connected state over an
index-free store, `initCollection` creates the requested unique index while
`initDb` creates none, so the two entry points do not have the same
effect. -/
theorem initCollection_initDb_not_equiv_cex :
    (initCollection env0 stConn ["email"] "User").1.server.indexes =
      [("User", "email")] ∧
    (initDb env0 stConn ["email"] "User").1.server.indexes = [] ∧
    (initCollection env0 stConn ["email"] "User").2 = .ok (some (0, "pgc")) ∧
    (initDb env0 stConn ["email"] "User").2 = .ok (some (0, "pgc")) := by
  exact ⟨rfl, rfl, rfl, rfl⟩

/-- C2 (amended): the two entry points agree exactly when starting from a
disconnected state — same connection, same created indexes, same result;
from an already-connected state they differ in that `initCollection` still
creates the indexes while `initDb` requests none. -/
theorem initCollection_initDb_equiv :
    ∀ (V : Type) (env : Env) (st : State V) (idxs : List String) (coll : String),
      st.mgr.db = none →
      initCollection env st idxs coll = initDb env st idxs coll := by
  intro V env st idxs coll hdb
  simp [initCollection, initDb, ensureConn, hdb]

/-- Witness for C2 (amended): on the disconnected fixture the two entry
points return identical states and results. -/
theorem initCollection_initDb_equiv_witness :
    initCollection env0 stDisc ["email"] "User" =
      initDb env0 stDisc ["email"] "User" :=
  initCollection_initDb_equiv String env0 stDisc ["email"] "User" rfl

/-! ### Helper lemmas about queries and inserts -/

/-- A document matches the filter built by `buildQuery field value` exactly
when its `field` holds `value`. -/
lemma matchesFilter_buildQuery {V : Type} [DecidableEq V] (field : String)
    (value : V) (d : Document V) :
    matchesFilter (buildQuery field value) d = true ↔
      getField d field = some value := by
  unfold matchesFilter buildQuery
  rcases hg : getField d field with _ | v <;> simp [hg]

/-- `findOne` finds a document for the equality filter exactly when some
document of the collection holds the value in the field. -/
lemma findOne_isSome_iff {V : Type} [DecidableEq V] (sv : Server V)
    (coll field : String) (value : V) :
    (sv.findOne coll (buildQuery field value)).isSome = true ↔
      ∃ d ∈ sv.collections coll, getField d field = some value := by
  unfold Server.findOne
  rw [List.find?_isSome]
  constructor
  · rintro ⟨d, hd, hm⟩
    exact ⟨d, hd, (matchesFilter_buildQuery field value d).mp hm⟩
  · rintro ⟨d, hd, hm⟩
    exact ⟨d, hd, (matchesFilter_buildQuery field value d).mpr hm⟩

/-- On a connected instance, `documentExists` leaves the state unchanged
and returns whether `findOne` found a match. -/
lemma documentExists_connected {V : Type} [DecidableEq V] (env : Env)
    (st : State V) (field : String) (value : V) (coll : String)
    (h : DbHandle) (hdb : st.mgr.db = some h) :
    documentExists env st field value coll =
      (st, .ok (st.server.findOne coll (buildQuery field value)).isSome) := by
  simp [documentExists, ensureConn_some env st h hdb, getCollection, hdb]

/-- A successful `addDocument` ends connected and with exactly the given
document appended to the collection, the rest of the store unchanged. -/
lemma addDocument_ok_state {V : Type} [DecidableEq V] (env : Env)
    (st : State V) (coll : String) (doc : Document V) (st1 : State V) (i : Nat)
    (hadd : addDocument env st coll doc = (st1, .ok i)) :
    (∃ h, st1.mgr.db = some h) ∧
    st1.server.collections coll = st.server.collections coll ++ [doc] := by
  have main : ∀ (mgr1 : DataBase) (h : DbHandle), mgr1.db = some h →
      ensureConn env st = (mgr1, .ok ()) →
      (∃ h2, st1.mgr.db = some h2) ∧
      st1.server.collections coll = st.server.collections coll ++ [doc] := by
    intro mgr1 h hdb1 hec
    rw [addDocument, hec] at hadd
    simp only [getCollection, hdb1] at hadd
    rcases hdup : st.server.dupViolation coll doc with _ | _
    · simp only [Server.insertOne, hdup, Bool.false_eq_true, if_false] at hadd
      have h1 := congrArg Prod.fst hadd
      simp only at h1
      rw [← h1]
      exact ⟨⟨h, hdb1⟩, by simp⟩
    · simp only [Server.insertOne, hdup, if_true] at hadd
      simp at hadd
  rcases hdb : st.mgr.db with _ | h
  · rcases hcp : env.clientPromise with e | c
    · rw [addDocument, ensureConn_none_err env st e hdb hcp] at hadd
      simp at hadd
    · exact main _ (c, st.mgr.dbName) rfl (ensureConn_none env st c hdb hcp)
  · exact main st.mgr h hdb (ensureConn_some env st h hdb)

/-- C4: `documentExists` lazy-connects exactly when no connection exists
and returns `true` iff at least one document of the collection matches the
single-field equality filter; in particular it is `false` on an empty
collection and `true` right after a successful `addDocument` of a document
holding that field value. -/
theorem documentExists_correct :
    (∀ (env : Env) (st : State String) (field value coll : String)
       (h : DbHandle), st.mgr.db = some h →
      ∃ b, documentExists env st field value coll = (st, .ok b) ∧
        (b = true ↔
          ∃ d ∈ st.server.collections coll, getField d field = some value)) ∧
    (∀ (env : Env) (st : State String) (field value coll : String) (c : Nat),
      st.mgr.db = none → env.clientPromise = .ok c →
      ∃ b, (documentExists env st field value coll).1.mgr.db =
          some (c, st.mgr.dbName) ∧
        (documentExists env st field value coll).2 = .ok b ∧
        (b = true ↔
          ∃ d ∈ st.server.collections coll, getField d field = some value)) ∧
    (∀ (env : Env) (st : State String) (coll : String) (doc : Document String)
       (field value : String) (st1 : State String) (i : Nat),
      addDocument env st coll doc = (st1, .ok i) →
      getField doc field = some value →
      (documentExists env st1 field value coll).2 = .ok true) := by
  refine ⟨?_, ?_, ?_⟩
  · intro env st field value coll h hdb
    exact ⟨(st.server.findOne coll (buildQuery field value)).isSome,
      documentExists_connected env st field value coll h hdb,
      findOne_isSome_iff st.server coll field value⟩
  · intro env st field value coll c hdb hcp
    refine ⟨(st.server.findOne coll (buildQuery field value)).isSome, ?_, ?_,
      findOne_isSome_iff st.server coll field value⟩
    · simp [documentExists, ensureConn_none env st c hdb hcp, getCollection]
    · simp [documentExists, ensureConn_none env st c hdb hcp, getCollection]
  · intro env st coll doc field value st1 i hadd hgf
    obtain ⟨⟨h, hdb1⟩, hcolls⟩ := addDocument_ok_state env st coll doc st1 i hadd
    have hfound : (st1.server.findOne coll (buildQuery field value)).isSome = true :=
      (findOne_isSome_iff st1.server coll field value).mpr
        ⟨doc, by rw [hcolls]; simp, hgf⟩
    rw [documentExists_connected env st1 field value coll h hdb1]
    simp [hfound]

/-- Witness for C4: on the connected fixture over an empty store the check
for `("email", "a@x.com")` in `"User"` returns `false`. -/
theorem documentExists_correct_witness :
    (documentExists env0 stConn "email" "a@x.com" "User").2 = .ok false := by
  obtain ⟨b, hb, hiff⟩ :=
    documentExists_correct.1 env0 stConn "email" "a@x.com" "User" (0, "pgc") rfl
  have hbf : b = false := by
    rcases hbool : b with _ | _
    · rfl
    · obtain ⟨d, hd, _⟩ := hiff.mp hbool
      simp [stConn, sampleServer] at hd
  rw [hb, hbf]

/-- A connected instance over a store whose `"User"` collection holds two
documents. -/
def stDocs : State String :=
  ⟨⟨"pgc", some 0, some (0, "pgc")⟩,
   ⟨fun n => if n = "User"
       then [[("email", "a@x.com")], [("email", "b@x.com")]] else [],
    [], 2, none⟩⟩

/-- C8: `removeAllDocuments` lazy-connects if needed, deletes every
document of the collection (the empty filter matches all), returns a
deleted count equal to the number of documents previously present, and
afterwards `documentExists` is `false` for every field and value on that
collection. -/
theorem removeAllDocuments_correct :
    ∀ (env : Env) (st : State String) (coll : String),
      (st.mgr.db = none → ∃ c, env.clientPromise = .ok c) →
      ∃ st1, removeAllDocuments env st coll =
          (st1, .ok (st.server.collections coll).length) ∧
        st1.server.collections coll = [] ∧
        ∀ (field value : String),
          (documentExists env st1 field value coll).2 = .ok false := by
  intro env st coll hconn
  have main : ∀ (mgr1 : DataBase) (h : DbHandle), mgr1.db = some h →
      ensureConn env st = (mgr1, .ok ()) →
      ∃ st1, removeAllDocuments env st coll =
          (st1, .ok (st.server.collections coll).length) ∧
        st1.server.collections coll = [] ∧
        ∀ (field value : String),
          (documentExists env st1 field value coll).2 = .ok false := by
    intro mgr1 h hdb1 hec
    have h2 : (removeAllDocuments env st coll).2 =
        .ok (st.server.collections coll).length := by
      rw [removeAllDocuments, hec]
      simp [getCollection, hdb1, Server.deleteManyAll]
    have hcoll2 : (removeAllDocuments env st coll).1.server.collections coll = [] := by
      rw [removeAllDocuments, hec]
      simp [getCollection, hdb1, Server.deleteManyAll]
    have hdb2 : (removeAllDocuments env st coll).1.mgr.db = some h := by
      rw [removeAllDocuments, hec]
      simp [getCollection, hdb1, Server.deleteManyAll, hdb1]
    refine ⟨(removeAllDocuments env st coll).1, Prod.ext_iff.mpr ⟨rfl, h2⟩,
      hcoll2, ?_⟩
    intro field value
    rw [documentExists_connected env _ field value coll h hdb2]
    simp [Server.findOne, hcoll2]
  rcases hdb : st.mgr.db with _ | h
  · obtain ⟨c, hcp⟩ := hconn hdb
    exact main _ (c, st.mgr.dbName) rfl (ensureConn_none env st c hdb hcp)
  · exact main st.mgr h hdb (ensureConn_some env st h hdb)

/-- Witness for C8: removing all documents from the two-document `"User"`
collection reports a deleted count of 2 and a previously present value is
no longer found. -/
theorem removeAllDocuments_correct_witness :
    ∃ st1, removeAllDocuments env0 stDocs "User" = (st1, .ok 2) ∧
      st1.server.collections "User" = [] ∧
      (documentExists env0 st1 "email" "a@x.com" "User").2 = .ok false := by
  obtain ⟨st1, h1, h2, h3⟩ :=
    removeAllDocuments_correct env0 stDocs "User" (fun _ => ⟨0, rfl⟩)
  exact ⟨st1, by simpa [stDocs] using h1, h2, h3 "email" "a@x.com"⟩

/-- C9: from any connected state, after a successful `disconnect` a
subsequent `addDocument` succeeds by lazily re-establishing the connection
(provided the client promise resolves and the document violates no unique
index), rather than failing permanently. -/
theorem addDocument_after_disconnect :
    ∀ (env : Env) (st : State String) (coll : String) (doc : Document String)
      (c c0 : Nat),
      env.clientPromise = .ok c →
      st.mgr.client = some c0 →
      st.server.dupViolation coll doc = false →
      ∃ mgr1, disconnectDb (.ok ()) st.mgr = (mgr1, .ok ()) ∧
        mgr1.client = none ∧ mgr1.db = none ∧
        ∃ st2 i, addDocument env { st with mgr := mgr1 } coll doc =
            (st2, .ok i) ∧
          st2.mgr.db = some (c, st.mgr.dbName) := by
  intro env st coll doc c c0 hcp hcl hdup
  refine ⟨{ st.mgr with client := none, db := none }, ?_, rfl, rfl, ?_⟩
  · simp [disconnectDb, hcl]
  · have hec : ensureConn env
        { st with mgr := { st.mgr with client := none, db := none } } =
        ({ st.mgr with client := some c, db := some (c, st.mgr.dbName) },
          .ok ()) := by
      have := ensureConn_none env
        { st with mgr := { st.mgr with client := none, db := none } } c rfl hcp
      simpa using this
    have hfull : addDocument env
        { st with mgr := { st.mgr with client := none, db := none } } coll doc =
        ({ mgr := { st.mgr with client := some c, db := some (c, st.mgr.dbName) },
           server := { st.server with
                        collections := fun n =>
                          if n = coll then st.server.collections coll ++ [doc]
                          else st.server.collections n,
                        nextId := st.server.nextId + 1 } },
          .ok st.server.nextId) := by
      rw [addDocument, hec]
      simp [getCollection, Server.insertOne, hdup]
    exact ⟨_, st.server.nextId, hfull, rfl⟩

/-- Witness for C9: disconnecting the connected fixture and then adding a
document succeeds with the connection re-established. -/
theorem addDocument_after_disconnect_witness :
    ∃ mgr1, disconnectDb (.ok ()) stConn.mgr = (mgr1, .ok ()) ∧
      mgr1.client = none ∧ mgr1.db = none ∧
      ∃ st2 i, addDocument env0 { stConn with mgr := mgr1 } "User"
          [("email", "a@x.com")] = (st2, .ok i) ∧
        st2.mgr.db = some (0, "pgc") :=
  addDocument_after_disconnect env0 stConn "User" [("email", "a@x.com")] 0 0
    rfl rfl rfl
